import Mathlib

/-!
# Shallow embedding of the `pwem` data model (`src/pwem/data.py`) and the
# Spider location converters (`src/pwem/packages/spider/convert.py`).

Conventions of the embedding:

* pyworkflow value wrappers (`Integer()`, `Float()`, `String()`, `Pointer()`)
  hold an optional value; `Integer()` with no argument is unset (`none`),
  `Integer(0)` is `some 0`, and `.get()` returns the stored optional value
  (Python `None` is `none`).  `Float` values are modelled as exact rationals.
* Python object mutation becomes explicit state passing: a method that
  mutates `self` returns the updated object; a method that can raise returns
  `Except String`.
* The sqlite-backed mapper is modelled by the list of items it stores, in
  insertion order; opening a backing file reads from an explicit
  `disk : String → List α` environment mapping a filename to the items the
  mapper iterates for that file.
* Python dicts keyed by item ids are association lists with
  insert-or-overwrite update (`dictSet`) and first-match lookup (`dictGet`);
  keys have type `Option Int` because `item.getId()` may be `None`.
-/

set_option autoImplicit false

namespace Pwem

/-- Python dict update `m[k] = v`: overwrite the binding of `k` if present,
otherwise append it. -/
def dictSet {α : Type} (m : List (Option Int × α)) (k : Option Int) (v : α) :
    List (Option Int × α) :=
  match m with
  | [] => [(k, v)]
  | (k', v') :: rest =>
      if k' = k then (k, v) :: rest else (k', v') :: dictSet rest k v

/-- Python dict lookup `m.get(k, None)`. -/
def dictGet {α : Type} (m : List (Option Int × α)) (k : Option Int) : Option α :=
  match m with
  | [] => none
  | (k', v') :: rest => if k' = k then some v' else dictGet rest k

/-- `Acquisition.__init__`: the four `Float` fields with their defaults. -/
structure Acquisition where
  magnification : Option ℚ := some 60000
  voltage : Option ℚ := some 300
  sphericalAberration : Option ℚ := some 2
  amplitudeContrast : Option ℚ := some (1/10)
deriving Repr, DecidableEq

/-- `Acquisition.copyInfo(self, other)`: `self.f.set(other.f.get())` for the
four acquisition fields. -/
def Acquisition.copyInfo (self other : Acquisition) : Acquisition :=
  { self with
    magnification := other.magnification
    voltage := other.voltage
    sphericalAberration := other.sphericalAberration
    amplitudeContrast := other.amplitudeContrast }

/-- `CTFModel.__init__`: an `Item` (`_id = Integer()`) plus defocus values and
file names. -/
structure CTFModel where
  _id : Option Int := none
  defocusU : Option ℚ := none
  defocusV : Option ℚ := none
  defocusAngle : Option ℚ := none
  psdFile : Option String := none
  micFile : Option String := none
deriving Repr, DecidableEq

/-- `Image.__init__`: an `Item` (`_id = Integer()`) plus
`_index = Integer(0)`, `_filename = String()`, `_samplingRate = Float()`,
`_ctfModel = None`. -/
structure Image where
  _id : Option Int := none
  _index : Option Int := some 0
  _filename : Option String := none
  _samplingRate : Option ℚ := none
  _ctfModel : Option CTFModel := none
deriving Repr, DecidableEq

/-- `Micrograph(Image)` adds no state. -/
abbrev Micrograph := Image

/-- `Particle(Image)` adds no state. -/
abbrev Particle := Image

/-- `Volume(Image)` adds no state. -/
abbrev Volume := Image

/-- `Coordinate.__init__`: an `Item` plus a non-stored micrograph pointer,
`_x`, `_y` and `_micId` integers. -/
structure Coordinate where
  _id : Option Int := none
  _micrographPointer : Option Image := none
  _x : Option Int := none
  _y : Option Int := none
  _micId : Option Int := none
deriving Repr, DecidableEq

/-- The `Item` interface used by `Set`: `getId` returns `self._id.get()` and
`setId` performs `self._id.set(imgId)`. -/
class PWItem (α : Type) where
  getId : α → Option Int
  setId : α → Int → α

instance : PWItem Image := ⟨fun x => x._id, fun x i => { x with _id := some i }⟩

instance : PWItem CTFModel := ⟨fun x => x._id, fun x i => { x with _id := some i }⟩

instance : PWItem Coordinate := ⟨fun x => x._id, fun x i => { x with _id := some i }⟩

/-- `Item.hasId`: `self._id.hasValue()`. -/
def hasId {α : Type} [PWItem α] (x : α) : Bool :=
  (PWItem.getId x).isSome

/-- `Set.__init__`: `_filename = String()`, `_mapper = None`, `_idCount = 0`,
`_size = Integer(0)`, `_idMap = {}`.  The mapper, when present, is the list of
items it stores in insertion order. -/
structure PWSet (α : Type) where
  _filename : Option String := none
  _mapper : Option (List α) := none
  _idCount : Int := 0
  _size : Int := 0
  _idMap : List (Option Int × α) := []
deriving Repr, DecidableEq

namespace PWSet

/-- `Set.getSize`: `self._size.get()`. -/
def getSize {α : Type} (s : PWSet α) : Int := s._size

/-- `Set.getFileName`: `self._filename.get()`. -/
def getFileName {α : Type} (s : PWSet α) : Option String := s._filename

/-- `Set.setFileName`. -/
def setFileName {α : Type} (s : PWSet α) (filename : String) : PWSet α :=
  { s with _filename := some filename }

/-- `Set.load`: raise unless a filename is set, open the mapper on the backing
file, rebuild `_idMap` from the iterated items and cache their count in
`_size`. -/
def load {α : Type} [PWItem α] (disk : String → List α) (s : PWSet α) :
    Except String (PWSet α) :=
  match s._filename with
  | none => .error "Set filename before calling load()"
  | some fn =>
      let items := disk fn
      .ok { s with
            _mapper := some items
            _idMap := items.foldl (fun m it => dictSet m (PWItem.getId it) it) []
            _size := (items.length : Int) }

/-- `Set.loadIfEmpty`: load only when `self._mapper is None`. -/
def loadIfEmpty {α : Type} [PWItem α] (disk : String → List α) (s : PWSet α) :
    Except String (PWSet α) :=
  match s._mapper with
  | none => load disk s
  | some _ => .ok s

/-- `Set.append(item)`: assign the next id when the item has none, load if
needed, insert into the mapper, bump the cached size and record the item in
`_idMap`.  The (possibly id-assigned) item is returned alongside the new set
state, mirroring the in-place mutation of the Python argument. -/
def append {α : Type} [PWItem α] (disk : String → List α) (s : PWSet α)
    (item : α) : Except String (α × PWSet α) :=
  let item' := if hasId item then item else PWItem.setId item (s._idCount + 1)
  let s0 := if hasId item then s else { s with _idCount := s._idCount + 1 }
  match loadIfEmpty disk s0 with
  | .error e => .error e
  | .ok s1 =>
      match s1._mapper with
      | none => .error "AttributeError: NoneType object has no attribute insert"
      | some l =>
          .ok (item', { s1 with
                        _mapper := some (l ++ [item'])
                        _size := s1._size + 1
                        _idMap := dictSet s1._idMap (PWItem.getId item') item' })

/-- `Set.__getitem__(imgId)`: load if needed, then `self._idMap.get(imgId, None)`. -/
def getItem {α : Type} [PWItem α] (disk : String → List α) (s : PWSet α)
    (imgId : Int) : Except String (Option α × PWSet α) :=
  match loadIfEmpty disk s with
  | .error e => .error e
  | .ok s1 => .ok (dictGet s1._idMap (some imgId), s1)

/-- `Set.getFirstItem`: load if needed, then `self._mapper.selectFirst()`. -/
def getFirstItem {α : Type} [PWItem α] (disk : String → List α) (s : PWSet α) :
    Except String (Option α × PWSet α) :=
  match loadIfEmpty disk s with
  | .error e => .error e
  | .ok s1 => .ok ((s1._mapper.getD []).head?, s1)

/-- `Set.__iter__`: load if needed, then `self._mapper.selectAll()`. -/
def iterSet {α : Type} [PWItem α] (disk : String → List α) (s : PWSet α) :
    Except String (List α × PWSet α) :=
  match loadIfEmpty disk s with
  | .error e => .error e
  | .ok s1 => .ok (s1._mapper.getD [], s1)

/-- Repeated `Set.append` over a list of items. -/
def appendAll {α : Type} [PWItem α] (disk : String → List α) (s : PWSet α) :
    List α → Except String (PWSet α)
  | [] => .ok s
  | it :: rest =>
      match append disk s it with
      | .error e => .error e
      | .ok (_, s') => appendAll disk s' rest

end PWSet

/-- A backing store holding no items for any filename: the environment of a
set whose sqlite file is created fresh and was never written before. -/
def emptyDisk {α : Type} : String → List α := fun _ => []

/-- A freshly constructed `Set()` whose filename has been set (a set must have
a filename before it can load or append) and that was never loaded. -/
def freshSet {α : Type} (fn : String) : PWSet α :=
  { _filename := some fn }

/-- The items currently held by the mapper (empty when no mapper exists). -/
def mapperItems {α : Type} (s : PWSet α) : List α := s._mapper.getD []

/-- Python truthiness of an optional numeric value: `not x` holds for `None`
and for zero. -/
def pyFalsy (x : Option ℚ) : Bool :=
  match x with
  | none => true
  | some q => q == 0

/-- `SetOfImages.__init__`: a `Set` of images plus sampling rate, the boolean
flags (`_isPhaseFlippled` spelt as in the source) and an `Acquisition`. -/
structure SetOfImages extends PWSet Image where
  _samplingRate : Option ℚ := none
  _hasCtf : Bool := false
  _hasAlignment : Bool := false
  _hasProjectionMatrix : Bool := false
  _isPhaseFlippled : Bool := false
  _isAmplitudeCorrected : Bool := false
  _acquisition : Acquisition := {}
deriving Repr, DecidableEq

namespace SetOfImages

/-- `SetOfImages.getSamplingRate`: `self._samplingRate.get()`. -/
def getSamplingRate (s : SetOfImages) : Option ℚ := s._samplingRate

/-- `SetOfImages.setSamplingRate`. -/
def setSamplingRate (s : SetOfImages) (samplingRate : ℚ) : SetOfImages :=
  { s with _samplingRate := some samplingRate }

/-- `SetOfImages.getAcquisition`. -/
def getAcquisition (s : SetOfImages) : Acquisition := s._acquisition

/-- `SetOfImages.append(image)`: `if not image.getSamplingRate():
image.setSamplingRate(self.getSamplingRate())`, then `Set.append`. -/
def append (disk : String → List Image) (s : SetOfImages) (image : Image) :
    Except String (Image × SetOfImages) :=
  let image' :=
    if pyFalsy image._samplingRate then
      { image with _samplingRate := s._samplingRate }
    else image
  match PWSet.append disk s.toPWSet image' with
  | .error e => .error e
  | .ok (it, ps) => .ok (it, { s with toPWSet := ps })

/-- `SetOfImages.copyInfo(other)`: copy `_samplingRate` and delegate to
`Acquisition.copyInfo` on `_acquisition`. -/
def copyInfo (self other : SetOfImages) : SetOfImages :=
  { self with
    _samplingRate := other._samplingRate
    _acquisition := Acquisition.copyInfo self._acquisition other._acquisition }

end SetOfImages

/-- `SetOfMicrographs.__init__`: a `SetOfImages` plus `_scannedPixelSize`. -/
structure SetOfMicrographs extends SetOfImages where
  _scannedPixelSize : Option ℚ := none
deriving Repr, DecidableEq

namespace SetOfMicrographs

/-- `SetOfMicrographs.setSamplingRate(samplingRate)`: store the sampling rate
and set `_scannedPixelSize` to `1e-4 * samplingRate * magnification`.  Returns
`none` when the magnification is unset (Python would raise `TypeError` on the
multiplication with `None`). -/
def setSamplingRate (s : SetOfMicrographs) (samplingRate : ℚ) :
    Option SetOfMicrographs :=
  match s._acquisition.magnification with
  | none => none
  | some m =>
      some { s with
             _samplingRate := some samplingRate
             _scannedPixelSize := some ((1/10000) * samplingRate * m) }

/-- `SetOfMicrographs.getScannedPixelSize`. -/
def getScannedPixelSize (s : SetOfMicrographs) : Option ℚ := s._scannedPixelSize

/-- `SetOfMicrographs.setScannedPixelSize(scannedPixelSize)`: store the pixel
size and set `_samplingRate` to `(1e+4 * scannedPixelSize) / magnification`.
Returns `none` when the magnification is unset (`TypeError`) or zero
(`ZeroDivisionError`). -/
def setScannedPixelSize (s : SetOfMicrographs) (scannedPixelSize : ℚ) :
    Option SetOfMicrographs :=
  match s._acquisition.magnification with
  | none => none
  | some m =>
      if m = 0 then none
      else
        some { s with
               _scannedPixelSize := some scannedPixelSize
               _samplingRate := some ((10000 * scannedPixelSize) / m) }

end SetOfMicrographs

/-- `SetOfCoordinates.__init__`: a `Set` of coordinates plus a pointer to the
associated `SetOfMicrographs` and a box size. -/
structure SetOfCoordinates extends PWSet Coordinate where
  _micrographsPointer : Option SetOfMicrographs := none
  _boxSize : Option Int := none
deriving Repr, DecidableEq

/-- `SetOfCoordinates.getMicrographs`: `self._micrographsPointer.get()`. -/
def SetOfCoordinates.getMicrographs (s : SetOfCoordinates) :
    Option SetOfMicrographs :=
  s._micrographsPointer

/-- `SetOfCoordinates.setMicrographs(micrographs)`:
`self._micrographsPointer.set(micrographs)`. -/
def SetOfCoordinates.setMicrographs (s : SetOfCoordinates)
    (micrographs : SetOfMicrographs) : SetOfCoordinates :=
  { s with _micrographsPointer := some micrographs }

/-- `SetOfParticles.__init__`: a `SetOfImages` plus `_coordsPointer`. -/
structure SetOfParticles extends SetOfImages where
  _coordsPointer : Option SetOfCoordinates := none
deriving Repr, DecidableEq

/-- `SetOfParticles.getCoordinates`: `self._coordsPointer.get()`. -/
def SetOfParticles.getCoordinates (p : SetOfParticles) :
    Option SetOfCoordinates :=
  p._coordsPointer

/-- `SetOfParticles.setCoordinates(coordinates)`:
`self._coordsPointer.set(coordinates)`. -/
def SetOfParticles.setCoordinates (p : SetOfParticles)
    (coordinates : SetOfCoordinates) : SetOfParticles :=
  { p with _coordsPointer := some coordinates }

/-- `SetOfCTF.__init__`: a `Set` of CTF models (`_idMap` re-initialised to the
empty dict, as in `Set.__init__`). -/
structure SetOfCTF extends PWSet CTFModel
deriving Repr, DecidableEq

namespace SetOfCTF

/-- `SetOfCTF.load`: `Set.load`, then rebuild `_idMap` from the items selected
by class `CTFModel` — in this typed store, all items of the mapper. -/
def load (disk : String → List CTFModel) (s : SetOfCTF) :
    Except String SetOfCTF :=
  match PWSet.load disk s.toPWSet with
  | .error e => .error e
  | .ok ps =>
      .ok { toPWSet :=
              { ps with
                _idMap := (ps._mapper.getD []).foldl
                  (fun m c => dictSet m (PWItem.getId c) c) [] } }

/-- `Set.loadIfEmpty` as inherited by `SetOfCTF` (dispatching to
`SetOfCTF.load`). -/
def loadIfEmpty (disk : String → List CTFModel) (s : SetOfCTF) :
    Except String SetOfCTF :=
  match s._mapper with
  | none => load disk s
  | some _ => .ok s

/-- `SetOfCTF.__getitem__(ctfId)`: load if needed, then
`self._idMap.get(ctfId, None)`. -/
def getItem (disk : String → List CTFModel) (s : SetOfCTF) (ctfId : Int) :
    Except String (Option CTFModel × SetOfCTF) :=
  match loadIfEmpty disk s with
  | .error e => .error e
  | .ok s1 => .ok (dictGet s1._idMap (some ctfId), s1)

end SetOfCTF

/-!
## Python attribute table of `SetOfImages` (for the `_isPhaseFlippled` typo)

Attribute reads on a Python object succeed only for names previously assigned
with `self.<name> = ...`; the lists below enumerate, straight from the source,
every such assignment reachable on a `SetOfImages` instance.
-/

/-- Attribute names assigned by `Set.__init__` followed by
`SetOfImages.__init__` (in execution order); note the source initialises
`_isPhaseFlippled`, not `_isPhaseFlipped`. -/
def setOfImagesInitAttrNames : List String :=
  ["_filename", "_mapper", "_idCount", "_size", "_idMap",
   "_samplingRate", "_hasCtf", "_hasAlignment", "_hasProjectionMatrix",
   "_isPhaseFlippled", "_isAmplitudeCorrected", "_acquisition"]

/-- Attribute names assigned by `self.<name> = ...` inside the public methods
of `Set` / `SetOfImages` (`load` assigns `_mapper` and `_idMap`; `append`
augments `_idCount`). -/
def setOfImagesMethodAttrNames : List String :=
  ["_mapper", "_idMap", "_idCount"]

/-- All attribute names a public operation of `SetOfImages` can ever have
assigned. -/
def setOfImagesAttrNames : List String :=
  setOfImagesInitAttrNames ++ setOfImagesMethodAttrNames

/-- Python attribute read: `AttributeError` unless the name was assigned. -/
def readAttr (assigned : List String) (name : String) : Except String String :=
  if name ∈ assigned then .ok name else .error "AttributeError"

/-- The attribute read performed by the body of `SetOfImages.isPhaseFlipped`,
`return self._isPhaseFlipped.get()`, against the attributes a `SetOfImages`
can have. -/
def isPhaseFlippedAttrRead : Except String String :=
  readAttr setOfImagesAttrNames "_isPhaseFlipped"

/-!
## Spider location converters (`src/pwem/packages/spider/convert.py`)

Python strings are modelled as lists of characters.  `NO_INDEX` comes from
`constants.py`, which is imported by this repository but absent from `src/`.
-/

/-- Modelled from the spec: `NO_INDEX` is imported from the repository's
`constants` module (`pyworkflow.em.constants`), which is not present under
`src/`; it is the sentinel index of an image that is not inside a stack, with
value `0`.  Every theorem below holds for any sentinel value. -/
def NO_INDEX : Int := 0

/-- The character for a decimal digit `d < 10`. -/
def digitChar (d : Nat) : Char := Char.ofNat (48 + d)

/-- Decimal digit list of a natural number, most significant digit first, as
produced by Python `"%d"` formatting. -/
def natDigits (n : Nat) : List Char :=
  if _h : n < 10 then [digitChar n]
  else natDigits (n / 10) ++ [digitChar (n % 10)]
decreasing_by exact Nat.div_lt_self (by omega) (by omega)

/-- Python `"%d" % i`: decimal representation with a leading minus sign for
negative values. -/
def intStr (i : Int) : List Char :=
  if i < 0 then '-' :: natDigits i.natAbs else natDigits i.natAbs

/-- One step of decimal accumulation. -/
def digitStep (acc : Nat) (c : Char) : Nat := acc * 10 + (c.toNat - 48)

/-- Value of a digit string. -/
def parseNat (cs : List Char) : Nat := cs.foldl digitStep 0

/-- Whether a character is a decimal digit. -/
def isDigitChar (c : Char) : Bool := 48 ≤ c.toNat && c.toNat ≤ 57

/-- Python `int(s)` on an optionally `-`-signed decimal string: `none` models
`ValueError`. -/
def pyInt (cs : List Char) : Option Int :=
  match cs with
  | [] => none
  | c :: rest =>
      if c = '-' then
        if rest ≠ [] ∧ rest.all isDigitChar then some (-(parseNat rest : Int))
        else none
      else
        if (c :: rest).all isDigitChar then some ((parseNat (c :: rest) : Int))
        else none

/-- Python `s.split(sep)` for a single-character separator. -/
def splitOnChar (sep : Char) : List Char → List (List Char)
  | [] => [[]]
  | c :: rest =>
      let r := splitOnChar sep rest
      if c = sep then [] :: r
      else
        match r with
        | [] => [[c]]
        | g :: gs => (c :: g) :: gs

/-- `locationToSpider(index, filename)`: `"%s@%d" % (filename, index)` when
`index != NO_INDEX`, otherwise the bare filename. -/
def locationToSpider (index : Int) (filename : List Char) : List Char :=
  if index ≠ NO_INDEX then filename ++ '@' :: intStr index
  else filename

/-- `spiderToLocation(spiderFilename)`: split on `'@'` when present and return
`(int(index), filename)`; otherwise `(NO_INDEX, filename)`.  `none` models the
`ValueError` raised by the two-element unpacking or by `int`. -/
def spiderToLocation (spiderFilename : List Char) : Option (Int × List Char) :=
  if '@' ∈ spiderFilename then
    match splitOnChar '@' spiderFilename with
    | [filename, index] => (pyInt index).map (fun i => (i, filename))
    | _ => none
  else some (NO_INDEX, spiderFilename)

/-- Unfolding of `PWItem.getId` for images. -/
@[simp] theorem image_getId (x : Image) : PWItem.getId x = x._id := rfl

/-- Unfolding of `PWItem.setId` for images. -/
@[simp] theorem image_setId (x : Image) (i : Int) :
    PWItem.setId x i = { x with _id := some i } := rfl

/-- Unfolding of `hasId` for images. -/
@[simp] theorem image_hasId (x : Image) : hasId x = x._id.isSome := rfl

/-- C4. `SetOfImages.copyInfo` copies the sampling rate and the four
acquisition fields from `other` into `self`; the embedding is functional, so
`other` is untouched by construction. -/
theorem setOfImages_copyInfo_copies_sampling_and_acquisition
    (s o : SetOfImages) :
    (SetOfImages.copyInfo s o)._samplingRate = o._samplingRate ∧
    (SetOfImages.copyInfo s o)._acquisition.magnification =
      o._acquisition.magnification ∧
    (SetOfImages.copyInfo s o)._acquisition.voltage = o._acquisition.voltage ∧
    (SetOfImages.copyInfo s o)._acquisition.sphericalAberration =
      o._acquisition.sphericalAberration ∧
    (SetOfImages.copyInfo s o)._acquisition.amplitudeContrast =
      o._acquisition.amplitudeContrast :=
  ⟨rfl, rfl, rfl, rfl, rfl⟩

/-- C6. The pointer-based relations round-trip: after
`SetOfParticles.setCoordinates` the getter returns the stored set of
coordinates, and after `SetOfCoordinates.setMicrographs` the getter returns
the stored set of micrographs (`Pointer.get` on a set pointer yields the
pointed-to object). -/
theorem pointer_relations_roundtrip (p : SetOfParticles)
    (c : SetOfCoordinates) (s : SetOfCoordinates) (m : SetOfMicrographs) :
    (p.setCoordinates c).getCoordinates = some c ∧
    (s.setMicrographs m).getMicrographs = some m :=
  ⟨rfl, rfl⟩

/-- C7. `SetOfImages.append` overwrites the image's sampling rate with the
set's exactly when the image's sampling rate is unset or zero, and leaves a
non-zero sampling rate unchanged; the adjusted image is what gets stored. -/
theorem setOfImages_append_sampling_propagation
    (disk : String → List Image) (s : SetOfImages) (l : List Image)
    (img : Image) (h : s._mapper = some l) :
    ∃ img' s', SetOfImages.append disk s img = .ok (img', s') ∧
      (pyFalsy img._samplingRate = true →
        img'._samplingRate = s.getSamplingRate) ∧
      (pyFalsy img._samplingRate = false →
        img'._samplingRate = img._samplingRate) ∧
      mapperItems s'.toPWSet = l ++ [img'] := by
  cases hf : pyFalsy img._samplingRate <;>
    cases hid : img._id <;>
      simp [SetOfImages.append, PWSet.append, PWSet.loadIfEmpty, hf, hid, h,
            mapperItems, SetOfImages.getSamplingRate] <;>
      exact ⟨_, _, ⟨rfl, rfl⟩, rfl, by simp⟩

/-- Witness for C7 at a concrete loaded set and image. -/
theorem setOfImages_append_sampling_propagation_witness :
    ∃ img' s',
      SetOfImages.append emptyDisk
        { toPWSet := { _filename := some "f", _mapper := some [] },
          _samplingRate := some 2 } { _filename := some "a" } =
        .ok (img', s') ∧
      (pyFalsy (Image._samplingRate { _filename := some "a" }) = true →
        img'._samplingRate =
          SetOfImages.getSamplingRate
            { toPWSet := { _filename := some "f", _mapper := some [] },
              _samplingRate := some 2 }) ∧
      (pyFalsy (Image._samplingRate { _filename := some "a" }) = false →
        img'._samplingRate = Image._samplingRate { _filename := some "a" }) ∧
      mapperItems s'.toPWSet = [] ++ [img'] :=
  setOfImages_append_sampling_propagation emptyDisk
    { toPWSet := { _filename := some "f", _mapper := some [] },
      _samplingRate := some 2 } [] { _filename := some "a" } rfl

/-- C8. With a non-zero magnification, `setSamplingRate` stores
`1e-4 * s * magnification` as scanned pixel size, `setScannedPixelSize p`
stores `1e+4 * p / magnification` as sampling rate, and composing the two
returns the original sampling rate exactly. -/
theorem setOfMicrographs_sampling_scanned_inverse (st : SetOfMicrographs)
    (s m : ℚ) (hm : st._acquisition.magnification = some m) (h0 : m ≠ 0) :
    ∃ st1, SetOfMicrographs.setSamplingRate st s = some st1 ∧
      st1._samplingRate = some s ∧
      st1._scannedPixelSize = some ((1/10000) * s * m) ∧
      ∃ st2, SetOfMicrographs.setScannedPixelSize st1 ((1/10000) * s * m) =
          some st2 ∧
        st2._scannedPixelSize = some ((1/10000) * s * m) ∧
        st2._samplingRate = some ((10000 * ((1/10000) * s * m)) / m) ∧
        st2._samplingRate = some s := by
  have e1 : SetOfMicrographs.setSamplingRate st s =
      some { st with _samplingRate := some s,
                     _scannedPixelSize := some ((1/10000) * s * m) } := by
    unfold SetOfMicrographs.setSamplingRate
    rw [hm]
  refine ⟨_, e1, rfl, rfl, ?_⟩
  have e2 : SetOfMicrographs.setScannedPixelSize
      { st with _samplingRate := some s,
                _scannedPixelSize := some ((1/10000) * s * m) }
      ((1/10000) * s * m) =
      some { st with
             _scannedPixelSize := some ((1/10000) * s * m),
             _samplingRate := some ((10000 * ((1/10000) * s * m)) / m) } := by
    unfold SetOfMicrographs.setScannedPixelSize
    rw [show ({ st with _samplingRate := some s,
                        _scannedPixelSize := some ((1/10000) * s * m) } :
          SetOfMicrographs)._acquisition.magnification = some m from hm]
    simp [h0]
  refine ⟨_, e2, rfl, rfl, ?_⟩
  show some ((10000 * ((1/10000) * s * m)) / m) = some s
  congr 1
  field_simp

/-- Witness for C8 at the default acquisition (magnification 60000). -/
theorem setOfMicrographs_sampling_scanned_inverse_witness :
    ∃ st1, SetOfMicrographs.setSamplingRate {} 3 = some st1 ∧
      st1._samplingRate = some 3 ∧
      st1._scannedPixelSize = some ((1/10000) * 3 * 60000) ∧
      ∃ st2, SetOfMicrographs.setScannedPixelSize st1 ((1/10000) * 3 * 60000) =
          some st2 ∧
        st2._scannedPixelSize = some ((1/10000) * 3 * 60000) ∧
        st2._samplingRate = some ((10000 * ((1/10000) * 3 * 60000)) / 60000) ∧
        st2._samplingRate = some 3 :=
  setOfMicrographs_sampling_scanned_inverse {} 3 60000 rfl (by norm_num)

/-- C9. On a loaded set, `__getitem__` with an id that is not a key of the id
map returns `None` (both for `Set` and for `SetOfCTF`): the lookup is
`dict.get` with default, never a raising subscript. -/
theorem getitem_missing_id_returns_none :
    (∀ (disk : String → List Image) (s : PWSet Image) (l : List Image)
        (i : Int), s._mapper = some l → dictGet s._idMap (some i) = none →
      PWSet.getItem disk s i = .ok (none, s)) ∧
    (∀ (disk : String → List CTFModel) (s : SetOfCTF) (l : List CTFModel)
        (i : Int), s._mapper = some l → dictGet s._idMap (some i) = none →
      SetOfCTF.getItem disk s i = .ok (none, s)) := by
  constructor
  · intro disk s l i hm hget
    simp [PWSet.getItem, PWSet.loadIfEmpty, hm, hget]
  · intro disk s l i hm hget
    simp [SetOfCTF.getItem, SetOfCTF.loadIfEmpty, hm, hget]

/-- Witness for C9 on loaded empty sets queried at id 7. -/
theorem getitem_missing_id_returns_none_witness :
    PWSet.getItem emptyDisk
      ({ _filename := some "f", _mapper := some [] } : PWSet Image) 7 =
      .ok (none, { _filename := some "f", _mapper := some [] }) ∧
    SetOfCTF.getItem emptyDisk
      { toPWSet := { _filename := some "g", _mapper := some [] } } 7 =
      .ok (none, { toPWSet := { _filename := some "g", _mapper := some [] } }) :=
  ⟨getitem_missing_id_returns_none.1 emptyDisk _ [] 7 rfl rfl,
   getitem_missing_id_returns_none.2 emptyDisk _ [] 7 rfl rfl⟩

/-- C10. The constructor initialises the misspelt attribute
`_isPhaseFlippled`, no constructor or public method ever assigns
`_isPhaseFlipped`, and hence the attribute read performed by
`isPhaseFlipped()` raises `AttributeError`. -/
theorem isPhaseFlipped_attribute_error :
    isPhaseFlippedAttrRead = .error "AttributeError" ∧
    "_isPhaseFlippled" ∈ setOfImagesInitAttrNames ∧
    "_isPhaseFlipped" ∉ setOfImagesAttrNames :=
  ⟨rfl, by decide, by decide⟩

/-- C3. Reads are lazy: on a set whose mapper exists, `__getitem__`,
`getFirstItem` and `__iter__` leave the state untouched and never consult the
backing file (the result is the same for every disk environment); on a set
without a mapper they perform exactly `load`; and a successful `load` always
installs a mapper, so it can never be triggered twice. -/
theorem set_lazy_load :
    (∀ (disk : String → List Image) (s : PWSet Image) (l : List Image)
        (i : Int), s._mapper = some l →
      PWSet.getItem disk s i = .ok (dictGet s._idMap (some i), s) ∧
      PWSet.getFirstItem disk s = .ok (l.head?, s) ∧
      PWSet.iterSet disk s = .ok (l, s)) ∧
    (∀ (disk : String → List Image) (s : PWSet Image) (i : Int),
        s._mapper = none →
      PWSet.getItem disk s i =
        (PWSet.load disk s).bind (fun s1 => .ok (dictGet s1._idMap (some i), s1))) ∧
    (∀ (disk : String → List Image) (s s' : PWSet Image),
        PWSet.load disk s = .ok s' → s'._mapper.isSome) := by
  refine ⟨?_, ?_, ?_⟩
  · intro disk s l i hm
    refine ⟨?_, ?_, ?_⟩ <;>
      simp [PWSet.getItem, PWSet.getFirstItem, PWSet.iterSet,
            PWSet.loadIfEmpty, hm]
  · intro disk s i hm
    cases hf : s._filename <;>
      simp [PWSet.getItem, PWSet.loadIfEmpty, PWSet.load, hm, hf,
            Except.bind]
  · intro disk s s' hload
    cases hf : s._filename <;> simp [PWSet.load, hf] at hload
    cases hload
    simp

/-- Witness for C3 on a concrete loaded one-element set and a concrete
unloaded set. -/
theorem set_lazy_load_witness :
    (PWSet.getItem emptyDisk
        ({ _filename := some "f", _mapper := some [{ _id := some 1 }],
           _idMap := [(some 1, { _id := some 1 })] } : PWSet Image) 1 =
      .ok (dictGet [(some 1, { _id := some 1 })] (some 1),
           { _filename := some "f", _mapper := some [{ _id := some 1 }],
             _idMap := [(some 1, { _id := some 1 })] })) ∧
    (PWSet.getItem emptyDisk ({ _filename := some "g" } : PWSet Image) 1 =
      (PWSet.load emptyDisk ({ _filename := some "g" } : PWSet Image)).bind
        (fun s1 => .ok (dictGet s1._idMap (some 1), s1))) :=
  ⟨(set_lazy_load.1 emptyDisk _ [{ _id := some 1 }] 1 rfl).1,
   set_lazy_load.2.1 emptyDisk _ 1 rfl⟩

/-- The cached size agrees with the number of items in the backing store: the
mapper's items once loaded, the items of the backing file before loading. -/
def sizeConsistent {α : Type} (disk : String → List α) (s : PWSet α) : Prop :=
  match s._mapper with
  | some l => s._size = (l.length : Int)
  | none => ∃ fn, s._filename = some fn ∧ s._size = ((disk fn).length : Int)

/-- C2. Immediately after `Set.load` the cached size returned by
`Set.getSize` equals the count of items iterated from the mapper, and a call
to `Set.append` on a set whose cache agrees with the backing store increases
`getSize` by exactly 1 while keeping it equal to the store's item count. -/
theorem set_size_cache_matches_store :
    (∀ (disk : String → List Image) (s : PWSet Image) (fn : String),
        s._filename = some fn →
      ∃ s', PWSet.load disk s = .ok s' ∧
        PWSet.getSize s' = ((disk fn).length : Int) ∧
        mapperItems s' = disk fn ∧ sizeConsistent disk s') ∧
    (∀ (disk : String → List Image) (s : PWSet Image) (it : Image),
        sizeConsistent disk s →
      ∃ it' s', PWSet.append disk s it = .ok (it', s') ∧
        PWSet.getSize s' = PWSet.getSize s + 1 ∧ sizeConsistent disk s') := by
  constructor
  · intro disk s fn hf
    have e : PWSet.load disk s = .ok { s with
        _mapper := some (disk fn),
        _idMap := (disk fn).foldl (fun m it => dictSet m (PWItem.getId it) it) [],
        _size := ((disk fn).length : Int) } := by
      unfold PWSet.load
      rw [hf]
    refine ⟨_, e, rfl, by simp [mapperItems], by simp [sizeConsistent]⟩
  · intro disk s it hcons
    cases hm : s._mapper with
    | some l =>
        have hsize : s._size = (l.length : Int) := by
          simpa [sizeConsistent, hm] using hcons
        cases hid : it._id <;>
          · have key : ∃ it' s', PWSet.append disk s it = .ok (it', s') ∧
                s'._size = s._size + 1 ∧ s'._mapper = some (l ++ [it']) := by
              simp [PWSet.append, PWSet.loadIfEmpty, hid, hm]
              exact ⟨_, _, ⟨rfl, rfl⟩, rfl, rfl⟩
            obtain ⟨it', s', e, h1, h2⟩ := key
            refine ⟨it', s', e, h1, ?_⟩
            simp [sizeConsistent, h2, h1, hsize]
    | none =>
        obtain ⟨fn, hf, hsize⟩ : ∃ fn, s._filename = some fn ∧
            s._size = (((disk fn).length : Int)) := by
          simpa [sizeConsistent, hm] using hcons
        cases hid : it._id <;>
          · have key : ∃ it' s', PWSet.append disk s it = .ok (it', s') ∧
                s'._size = ((disk fn).length : Int) + 1 ∧
                s'._mapper = some (disk fn ++ [it']) := by
              simp [PWSet.append, PWSet.loadIfEmpty, PWSet.load, hid, hm, hf]
              exact ⟨_, _, ⟨rfl, rfl⟩, rfl, rfl⟩
            obtain ⟨it', s', e, h1, h2⟩ := key
            refine ⟨it', s', e, ?_, ?_⟩
            · simp [PWSet.getSize, h1, hsize]
            · simp [sizeConsistent, h2, h1]

/-- Witness for C2 on a one-item backing file and a loaded one-item set. -/
theorem set_size_cache_matches_store_witness :
    (∃ s', PWSet.load (fun _ => [({ _id := some 1 } : Image)])
        ({ _filename := some "f" } : PWSet Image) = .ok s' ∧
      PWSet.getSize s' =
        (((fun (_ : String) => [({ _id := some 1 } : Image)]) "f").length : Int) ∧
      mapperItems s' = (fun (_ : String) => [({ _id := some 1 } : Image)]) "f" ∧
      sizeConsistent (fun _ => [({ _id := some 1 } : Image)]) s') ∧
    (∃ it' s', PWSet.append (fun _ => [({ _id := some 1 } : Image)])
        ({ _filename := some "f", _mapper := some [{ _id := some 1 }],
           _size := 1 } : PWSet Image) { _filename := some "x" } =
        .ok (it', s') ∧
      PWSet.getSize s' =
        PWSet.getSize
          ({ _filename := some "f", _mapper := some [{ _id := some 1 }],
             _size := 1 } : PWSet Image) + 1 ∧
      sizeConsistent (fun _ => [({ _id := some 1 } : Image)]) s') :=
  ⟨set_size_cache_matches_store.1 _ _ "f" rfl,
   set_size_cache_matches_store.2 _ _ { _filename := some "x" } (by
    simp [sizeConsistent])⟩

/-- `digitChar d` for `d < 10` has code point `48 + d`. -/
theorem digitChar_toNat (d : Nat) (h : d < 10) : (digitChar d).toNat = 48 + d := by
  interval_cases d <;> decide

/-- `digitChar d` for `d < 10` is a decimal digit character. -/
theorem isDigitChar_digitChar (d : Nat) (h : d < 10) :
    isDigitChar (digitChar d) = true := by
  interval_cases d <;> decide

/-- Digit characters are not `'@'`. -/
theorem digitChar_ne_at (d : Nat) (h : d < 10) : digitChar d ≠ '@' := by
  interval_cases d <;> decide

/-- Digit characters are not `'-'`. -/
theorem digitChar_ne_minus (d : Nat) (h : d < 10) : digitChar d ≠ '-' := by
  interval_cases d <;> decide

/-- Accumulating a digit character. -/
theorem digitStep_digitChar (acc d : Nat) (h : d < 10) :
    digitStep acc (digitChar d) = acc * 10 + d := by
  unfold digitStep
  rw [digitChar_toNat d h]
  omega

/-- `natDigits` never returns the empty list. -/
theorem natDigits_ne_nil (n : Nat) : natDigits n ≠ [] := by
  rw [natDigits]
  split <;> simp

/-- Every character of `natDigits n` is a digit character. -/
theorem natDigits_mem (n : Nat) : ∀ c ∈ natDigits n, ∃ d, d < 10 ∧ c = digitChar d := by
  rw [natDigits]
  split
  · intro c hc
    simp only [List.mem_singleton] at hc
    exact ⟨n, by omega, hc⟩
  · intro c hc
    rcases List.mem_append.mp hc with h1 | h2
    · exact natDigits_mem (n / 10) c h1
    · simp only [List.mem_singleton] at h2
      exact ⟨n % 10, Nat.mod_lt _ (by omega), h2⟩
termination_by n
decreasing_by exact Nat.div_lt_self (by omega) (by omega)

/-- Folding `digitStep` over `natDigits n` recovers `n` (shifted by the
accumulator). -/
theorem foldl_digitStep_natDigits (n : Nat) : ∀ acc : Nat,
    List.foldl digitStep acc (natDigits n) =
      acc * 10 ^ (natDigits n).length + n := by
  rw [natDigits]
  split
  · intro acc
    simp [digitStep_digitChar acc n (by omega)]
  · intro acc
    rw [List.foldl_append, foldl_digitStep_natDigits (n / 10) acc]
    simp only [List.foldl_cons, List.foldl_nil, List.length_append,
      List.length_singleton]
    rw [digitStep_digitChar _ (n % 10) (Nat.mod_lt _ (by omega))]
    have hdm := Nat.div_add_mod n 10
    rw [pow_succ]
    ring_nf
    omega
termination_by n
decreasing_by exact Nat.div_lt_self (by omega) (by omega)

/-- `parseNat` inverts `natDigits`. -/
theorem parseNat_natDigits (n : Nat) : parseNat (natDigits n) = n := by
  unfold parseNat
  rw [foldl_digitStep_natDigits n 0]
  simp

/-- All characters of `natDigits` pass `isDigitChar`. -/
theorem natDigits_all_digits (n : Nat) : (natDigits n).all isDigitChar = true := by
  rw [List.all_eq_true]
  intro c hc
  obtain ⟨d, hd, rfl⟩ := natDigits_mem n c hc
  exact isDigitChar_digitChar d hd

/-- `'@'` never occurs in `natDigits`. -/
theorem at_not_mem_natDigits (n : Nat) : '@' ∉ natDigits n := by
  intro hc
  obtain ⟨d, hd, he⟩ := natDigits_mem n '@' hc
  exact digitChar_ne_at d hd he.symm

/-- `'@'` never occurs in `intStr`. -/
theorem at_not_mem_intStr (i : Int) : '@' ∉ intStr i := by
  unfold intStr
  split
  · intro hc
    rcases List.mem_cons.mp hc with h1 | h2
    · exact absurd h1.symm (by decide)
    · exact at_not_mem_natDigits _ h2
  · exact at_not_mem_natDigits _

/-- Python `int` inverts Python `"%d"` formatting. -/
theorem pyInt_intStr (i : Int) : pyInt (intStr i) = some i := by
  by_cases hi : i < 0
  · have : intStr i = '-' :: natDigits i.natAbs := by
      unfold intStr
      rw [if_pos hi]
    rw [this]
    show (if ('-' : Char) = '-' then
        if natDigits i.natAbs ≠ [] ∧ (natDigits i.natAbs).all isDigitChar = true
        then some (-(parseNat (natDigits i.natAbs) : Int)) else none
      else if (('-' : Char) :: natDigits i.natAbs).all isDigitChar = true
        then some ((parseNat (('-' : Char) :: natDigits i.natAbs) : Int)) else none) = some i
    rw [if_pos rfl, if_pos ⟨natDigits_ne_nil _, natDigits_all_digits _⟩,
      parseNat_natDigits]
    congr 1
    omega
  · have h1 : intStr i = natDigits i.natAbs := by
      unfold intStr
      rw [if_neg hi]
    obtain ⟨c, cs, hcc⟩ : ∃ c cs, natDigits i.natAbs = c :: cs := by
      cases h : natDigits i.natAbs with
      | nil => exact absurd h (natDigits_ne_nil _)
      | cons c cs => exact ⟨c, cs, rfl⟩
    have hcd : ∃ d, d < 10 ∧ c = digitChar d :=
      natDigits_mem i.natAbs c (by rw [hcc]; exact List.mem_cons_self _ _)
    obtain ⟨d, hd, rfl⟩ := hcd
    rw [h1, hcc]
    show (if digitChar d = '-' then
        if cs ≠ [] ∧ cs.all isDigitChar = true
        then some (-(parseNat cs : Int)) else none
      else if (digitChar d :: cs).all isDigitChar = true
        then some ((parseNat (digitChar d :: cs) : Int)) else none) = some i
    rw [if_neg (digitChar_ne_minus d hd),
      if_pos (by rw [← hcc]; exact natDigits_all_digits _)]
    rw [show digitChar d :: cs = natDigits i.natAbs from hcc.symm,
      parseNat_natDigits]
    congr 1
    omega

/-- When the separator does not occur, Python `split` returns the whole
string. -/
theorem splitOnChar_not_mem (sep : Char) (cs : List Char) (h : sep ∉ cs) :
    splitOnChar sep cs = [cs] := by
  induction cs with
  | nil => rfl
  | cons c rest ih =>
      have hc : ¬(c = sep) := fun he => h (by simp [he])
      have hr : sep ∉ rest := fun hm => h (List.mem_cons_of_mem _ hm)
      simp [splitOnChar, hc, ih hr]

/-- Splitting `a ++ '@' :: b` when neither part contains the separator. -/
theorem splitOnChar_append (sep : Char) (a b : List Char) (ha : sep ∉ a)
    (hb : sep ∉ b) : splitOnChar sep (a ++ sep :: b) = [a, b] := by
  induction a with
  | nil => simp [splitOnChar, splitOnChar_not_mem sep b hb]
  | cons c a' ih =>
      have hc : ¬(c = sep) := fun he => ha (by simp [he])
      have ha' : sep ∉ a' := fun hm => ha (List.mem_cons_of_mem _ hm)
      simp [splitOnChar, hc, ih ha']

/-- C5. Spider location marshaling round-trips: for an index different from
`NO_INDEX` and an `'@'`-free filename,
`spiderToLocation (locationToSpider index filename)` returns exactly
`(index, filename)`, and for `NO_INDEX` the same composition returns
`(NO_INDEX, filename)`. -/
theorem spider_location_roundtrip (index : Int) (filename : List Char)
    (h : '@' ∉ filename) :
    (index ≠ NO_INDEX →
      spiderToLocation (locationToSpider index filename) =
        some (index, filename)) ∧
    spiderToLocation (locationToSpider NO_INDEX filename) =
      some (NO_INDEX, filename) := by
  constructor
  · intro hne
    unfold locationToSpider
    rw [if_pos hne]
    unfold spiderToLocation
    rw [if_pos (by simp), splitOnChar_append '@' filename (intStr index) h
      (at_not_mem_intStr index)]
    simp [pyInt_intStr]
  · unfold locationToSpider
    rw [if_neg (by simp)]
    unfold spiderToLocation
    rw [if_neg h]

/-- Witness for C5 at index 5 and filename `abc`. -/
theorem spider_location_roundtrip_witness :
    spiderToLocation (locationToSpider 5 ['a', 'b', 'c']) =
      some (5, ['a', 'b', 'c']) ∧
    spiderToLocation (locationToSpider NO_INDEX ['a', 'b', 'c']) =
      some (NO_INDEX, ['a', 'b', 'c']) :=
  ⟨(spider_location_roundtrip 5 ['a', 'b', 'c'] (by decide)).1 (by decide),
   (spider_location_roundtrip 5 ['a', 'b', 'c'] (by decide)).2⟩

/-- The items of a list tagged with consecutive ids starting at `c`. -/
def tagFrom (c : Int) : List Image → List Image
  | [] => []
  | it :: rest => { it with _id := some c } :: tagFrom (c + 1) rest

/-- `tagFrom` preserves length. -/
theorem tagFrom_length (c : Int) (xs : List Image) :
    (tagFrom c xs).length = xs.length := by
  induction xs generalizing c with
  | nil => rfl
  | cons x rest ih => simp [tagFrom, ih]

/-- The `i`-th tagged item is the `i`-th input item carrying id `c + i`. -/
theorem tagFrom_get? (c : Int) (xs : List Image) :
    ∀ (i : Nat) (hi : i < xs.length),
      (tagFrom c xs).get? i =
        some { xs.get ⟨i, hi⟩ with _id := some (c + i) } := by
  induction xs generalizing c with
  | nil => intro i hi; simp at hi
  | cons x rest ih =>
      intro i hi
      cases i with
      | zero => simp [tagFrom]
      | succ j =>
          have hj : j < rest.length := by simpa using hi
          have := ih (c + 1) j hj
          simp only [tagFrom, List.get?_cons_succ, List.length_cons] at this ⊢
          rw [this]
          congr 2
          push_cast
          ring_nf

/-- Every tagged item has an id. -/
theorem tagFrom_hasId (c : Int) (xs : List Image) :
    ∀ x ∈ tagFrom c xs, x._id.isSome := by
  induction xs generalizing c with
  | nil => intro x hx; cases hx
  | cons y rest ih =>
      intro x hx
      rcases List.mem_cons.mp hx with h1 | h2
      · simp [h1]
      · exact ih (c + 1) x h2

/-- Tagged ids are at least the starting id. -/
theorem tagFrom_id_ge (c : Int) (xs : List Image) :
    ∀ x ∈ tagFrom c xs, ∀ k, x._id = some k → c ≤ k := by
  induction xs generalizing c with
  | nil => intro x hx; cases hx
  | cons y rest ih =>
      intro x hx k hk
      rcases List.mem_cons.mp hx with h1 | h2
      · rw [h1] at hk
        simp only [Option.some.injEq] at hk
        omega
      · have := ih (c + 1) x h2 k hk
        omega

/-- Lookup after an overwrite at the same key. -/
theorem dictGet_dictSet_self {α : Type} (m : List (Option Int × α))
    (k : Option Int) (v : α) : dictGet (dictSet m k v) k = some v := by
  induction m with
  | nil => simp [dictSet, dictGet]
  | cons p rest ih =>
      obtain ⟨k', v'⟩ := p
      by_cases h : k' = k <;> simp [dictSet, dictGet, h, ih]

/-- Lookup after an overwrite at a different key. -/
theorem dictGet_dictSet_ne {α : Type} (m : List (Option Int × α))
    (k k' : Option Int) (v : α) (h : k' ≠ k) :
    dictGet (dictSet m k' v) k = dictGet m k := by
  induction m with
  | nil => simp [dictSet, dictGet, h]
  | cons p rest ih =>
      obtain ⟨k0, v0⟩ := p
      by_cases h0 : k0 = k'
      · subst h0
        simp [dictSet, dictGet, h]
      · by_cases h1 : k0 = k
        · subst h1
          simp [dictSet, dictGet, h0, Ne.symm h]
        · simp [dictSet, dictGet, h0, h1, ih]

/-- Inserting items none of which carries the key leaves the lookup of that
key unchanged. -/
theorem dictGet_insert_not_mem (xs : List Image) :
    ∀ (m : List (Option Int × Image)) (k : Option Int),
      (∀ x ∈ xs, x._id ≠ k) →
      dictGet (xs.foldl (fun m it => dictSet m it._id it) m) k =
        dictGet m k := by
  induction xs with
  | nil => intro m k _; rfl
  | cons x rest ih =>
      intro m k hk
      simp only [List.foldl_cons]
      rw [ih _ k (fun y hy => hk y (List.mem_cons_of_mem _ hy)),
        dictGet_dictSet_ne _ _ _ _ (hk x (List.mem_cons_self _ _))]

/-- Looking up id `c + i` after inserting the items tagged from `c` yields the
`i`-th tagged item. -/
theorem dictGet_insert_tagFrom (xs : List Image) :
    ∀ (c : Int) (m : List (Option Int × Image)) (i : Nat)
      (hi : i < xs.length),
      dictGet ((tagFrom c xs).foldl
          (fun m it => dictSet m it._id it) m) (some (c + i)) =
        some { xs.get ⟨i, hi⟩ with _id := some (c + i) } := by
  induction xs with
  | nil => intro c m i hi; simp at hi
  | cons x rest ih =>
      intro c m i hi
      cases i with
      | zero =>
          simp only [tagFrom, List.foldl_cons]
          have hk0 : (some (c + ((0 : Nat) : Int)) : Option Int) = some c := by
            norm_num
          rw [hk0]
          have hne : ∀ y ∈ tagFrom (c + 1) rest, y._id ≠ some c := by
            intro y hy he
            have := tagFrom_id_ge (c + 1) rest y hy c he
            omega
          rw [dictGet_insert_not_mem _ _ _ hne, dictGet_dictSet_self]
          simp
      | succ j =>
          have hj : j < rest.length := by simpa using hi
          simp only [tagFrom, List.foldl_cons]
          rw [show (some (c + ((j + 1 : Nat) : Int)) : Option Int) =
            some ((c + 1) + (j : Int)) from by push_cast; ring_nf]
          rw [ih (c + 1) (dictSet m (some c) { x with _id := some c }) j hj,
            show ((c + 1) + (j : Int)) = c + ((j + 1 : Nat) : Int) from by
              push_cast; ring]
          rfl

/-- The id-map fold used by `Set.load` and the `_id`-based fold coincide on
images. -/
theorem foldGetId_eq :
    (fun (m : List (Option Int × Image)) (it : Image) =>
      dictSet m (PWItem.getId it) it) =
    (fun (m : List (Option Int × Image)) (it : Image) =>
      dictSet m it._id it) := rfl

/-- Appending items without ids onto a loaded set tags them with consecutive
ids continuing the counter, extends the mapper and id map accordingly, and
grows the size by the number of items. -/
theorem appendAll_loaded (disk : String → List Image) :
    ∀ (items : List Image), (∀ it ∈ items, it._id = none) →
    ∀ (s : PWSet Image) (l : List Image), s._mapper = some l →
    ∃ s', PWSet.appendAll disk s items = .ok s' ∧
      s'._filename = s._filename ∧
      s'._mapper = some (l ++ tagFrom (s._idCount + 1) items) ∧
      s'._idCount = s._idCount + items.length ∧
      s'._size = s._size + items.length ∧
      s'._idMap = (tagFrom (s._idCount + 1) items).foldl
        (fun m it => dictSet m it._id it) s._idMap := by
  intro items
  induction items with
  | nil =>
      intro _ s l hm
      exact ⟨s, rfl, rfl, by simp [tagFrom, hm], by simp, by simp, rfl⟩
  | cons it rest ih =>
      intro h s l hm
      have hid : it._id = none := h it (List.mem_cons_self _ _)
      have hrest : ∀ x ∈ rest, x._id = none :=
        fun x hx => h x (List.mem_cons_of_mem _ hx)
      have hstep : PWSet.appendAll disk s (it :: rest) =
          PWSet.appendAll disk
            { s with
              _idCount := s._idCount + 1
              _mapper := some (l ++ [{ it with _id := some (s._idCount + 1) }])
              _size := s._size + 1
              _idMap := dictSet s._idMap (some (s._idCount + 1))
                { it with _id := some (s._idCount + 1) } } rest := by
        simp [PWSet.appendAll, PWSet.append, PWSet.loadIfEmpty, hid, hm]
      obtain ⟨s', he, hf, hmap, hc, hsz, hidm⟩ := ih hrest
        { s with
          _idCount := s._idCount + 1
          _mapper := some (l ++ [{ it with _id := some (s._idCount + 1) }])
          _size := s._size + 1
          _idMap := dictSet s._idMap (some (s._idCount + 1))
            { it with _id := some (s._idCount + 1) } }
        (l ++ [{ it with _id := some (s._idCount + 1) }]) rfl
      refine ⟨s', by rw [hstep]; exact he, hf, ?_, ?_, ?_, ?_⟩
      · rw [hmap]
        simp [tagFrom]
      · rw [hc]
        simp only [List.length_cons]
        push_cast
        ring
      · rw [hsz]
        simp only [List.length_cons]
        push_cast
        ring
      · rw [hidm]
        simp [tagFrom]

/-- C1. On a fresh set backed by an empty file, appending items that have no
ids assigns ids 1, 2, 3, ... in consecutive order, every stored item ends up
with an id, and `__getitem__` at an assigned id returns exactly the item that
received that id. -/
theorem set_append_assigns_consecutive_ids (fn : String) (items : List Image)
    (h : ∀ it ∈ items, it._id = none) :
    ∃ s', PWSet.appendAll emptyDisk (freshSet fn) items = .ok s' ∧
      mapperItems s' = tagFrom 1 items ∧
      (∀ (i : Nat) (hi : i < items.length),
        (mapperItems s').get? i =
          some { items.get ⟨i, hi⟩ with _id := some ((i : Int) + 1) }) ∧
      (∀ x ∈ mapperItems s', hasId x = true) ∧
      (∀ (i : Nat) (hi : i < items.length),
        PWSet.getItem emptyDisk s' ((i : Int) + 1) =
          .ok (some { items.get ⟨i, hi⟩ with _id := some ((i : Int) + 1) }, s')) := by
  cases items with
  | nil =>
      refine ⟨freshSet fn, rfl, rfl, ?_, ?_, ?_⟩
      · intro i hi
        simp at hi
      · intro x hx
        simp [mapperItems, freshSet] at hx
      · intro i hi
        simp at hi
  | cons it rest =>
      have hid : it._id = none := h it (List.mem_cons_self _ _)
      have hrest : ∀ x ∈ rest, x._id = none :=
        fun x hx => h x (List.mem_cons_of_mem _ hx)
      have hstep : PWSet.appendAll emptyDisk (freshSet fn) (it :: rest) =
          PWSet.appendAll emptyDisk
            { _filename := some fn
              _mapper := some [{ it with _id := some 1 }]
              _idCount := 1
              _size := 1
              _idMap := [(some 1, { it with _id := some 1 })] } rest := by
        simp [PWSet.appendAll, PWSet.append, PWSet.loadIfEmpty, PWSet.load,
          emptyDisk, freshSet, dictSet, hid]
      obtain ⟨s', he, hf, hmap, hc, hsz, hidm⟩ :=
        appendAll_loaded emptyDisk rest hrest
          { _filename := some fn
            _mapper := some [{ it with _id := some 1 }]
            _idCount := 1
            _size := 1
            _idMap := [(some 1, { it with _id := some 1 })] }
          [{ it with _id := some 1 }] rfl
      have hmap' : mapperItems s' = tagFrom 1 (it :: rest) := by
        rw [mapperItems, hmap]
        simp [tagFrom]
      have hidm' : s'._idMap =
          (tagFrom 1 (it :: rest)).foldl (fun m x => dictSet m x._id x) [] := by
        rw [hidm]
        simp [tagFrom, dictSet]
      refine ⟨s', by rw [hstep]; exact he, hmap', ?_, ?_, ?_⟩
      · intro i hi
        rw [hmap', tagFrom_get? 1 (it :: rest) i hi,
          show (1 + (i : Int)) = (i : Int) + 1 from by ring]
      · intro x hx
        rw [hmap'] at hx
        simpa using tagFrom_hasId 1 (it :: rest) x hx
      · intro i hi
        have hload : PWSet.loadIfEmpty emptyDisk s' = .ok s' := by
          simp [PWSet.loadIfEmpty, hmap]
        simp only [PWSet.getItem, hload]
        rw [hidm', show ((i : Int) + 1) = 1 + (i : Int) from by ring,
          dictGet_insert_tagFrom (it :: rest) 1 [] i hi,
          show (1 + (i : Int)) = (i : Int) + 1 from by ring]

/-- A concrete id-less image used by witnesses. -/
def imgA : Image := { _filename := some "a.mrc" }

/-- Another concrete id-less image used by witnesses. -/
def imgB : Image := { _filename := some "b.mrc" }

/-- Witness for C1 appending two concrete images to a fresh set. -/
theorem set_append_assigns_consecutive_ids_witness :
    ∃ s', PWSet.appendAll emptyDisk (freshSet "items.sqlite") [imgA, imgB] =
        .ok s' ∧
      mapperItems s' = tagFrom 1 [imgA, imgB] ∧
      (∀ (i : Nat) (hi : i < ([imgA, imgB] : List Image).length),
        (mapperItems s').get? i =
          some { ([imgA, imgB] : List Image).get ⟨i, hi⟩ with
                 _id := some ((i : Int) + 1) }) ∧
      (∀ x ∈ mapperItems s', hasId x = true) ∧
      (∀ (i : Nat) (hi : i < ([imgA, imgB] : List Image).length),
        PWSet.getItem emptyDisk s' ((i : Int) + 1) =
          .ok (some { ([imgA, imgB] : List Image).get ⟨i, hi⟩ with
                      _id := some ((i : Int) + 1) }, s')) :=
  set_append_assigns_consecutive_ids "items.sqlite" [imgA, imgB] (by
    intro x hx
    rcases List.mem_cons.mp hx with h1 | h2
    · rw [h1]; rfl
    · rcases List.mem_cons.mp h2 with h3 | h4
      · rw [h3]; rfl
      · cases h4)

end Pwem
